import Mathlib

/-!
Verification of the vehicle-physics / camera / ground-sampling core of the
driving demo in `src/main.js`.

The state-evolving core (the `vehicle` object, `physicsStep`, `resetVehicle`,
`toggleCamera`, `updateCamera`, `getGroundHeightAt`) is embedded shallowly
over the reals.  Vector and quaternion operations reproduce the formulas of
the external `THREE` library routines actually invoked by the source
(`Vector3.add/sub/multiplyScalar/divideScalar/length/normalize/dot/
applyQuaternion/lerp/addScaledVector`, `Quaternion.multiplyQuaternions/
setFromAxisAngle`, `MathUtils.lerp`, `Math.sign`, `Math.pow`, `Math.tan`).
The nullable `vehicle.mesh` is an `Option`; a JavaScript `TypeError` from
dereferencing a `null` mesh is modelled as `Option.none` in the result of the
one operation that dereferences it unguarded (`toggleCamera`).
The external raycaster is a parameter: the list of intersection heights it
reports for the downward probe at a given `(x, z)`.
-/

noncomputable section

namespace Car

/-- A 3-component real vector, as `THREE.Vector3`. -/
@[ext]
structure Vec3 where
  x : ℝ
  y : ℝ
  z : ℝ

/-- `Vector3.add`. -/
def Vec3.add (a b : Vec3) : Vec3 := ⟨a.x + b.x, a.y + b.y, a.z + b.z⟩

/-- `Vector3.sub`. -/
def Vec3.sub (a b : Vec3) : Vec3 := ⟨a.x - b.x, a.y - b.y, a.z - b.z⟩

/-- `Vector3.multiplyScalar c`. -/
def Vec3.smul (c : ℝ) (v : Vec3) : Vec3 := ⟨c * v.x, c * v.y, c * v.z⟩

/-- `Vector3.dot`. -/
def Vec3.dot (a b : Vec3) : ℝ := a.x * b.x + a.y * b.y + a.z * b.z

/-- `Vector3.length`. -/
def Vec3.length (v : Vec3) : ℝ := Real.sqrt (v.x ^ 2 + v.y ^ 2 + v.z ^ 2)

/-- `Vector3.normalize`: `divideScalar(this.length() || 1)`, and
`divideScalar s` is `multiplyScalar (1/s)`. -/
def Vec3.normalize (v : Vec3) : Vec3 :=
  Vec3.smul (1 / (if v.length = 0 then 1 else v.length)) v

/-- A quaternion, as `THREE.Quaternion` (components `x y z w`). -/
@[ext]
structure Quat where
  x : ℝ
  y : ℝ
  z : ℝ
  w : ℝ

/-- `Quaternion.multiplyQuaternions a b` (Hamilton product, THREE's layout). -/
def Quat.mul (a b : Quat) : Quat :=
  ⟨a.x * b.w + a.w * b.x + a.y * b.z - a.z * b.y,
   a.y * b.w + a.w * b.y + a.z * b.x - a.x * b.z,
   a.z * b.w + a.w * b.z + a.x * b.y - a.y * b.x,
   a.w * b.w - a.x * b.x - a.y * b.y - a.z * b.z⟩

/-- `Quaternion.setFromAxisAngle` with axis `(0,1,0)` (the world vertical),
as built at `src/main.js:218`. -/
def Quat.setFromAxisAngleY (angle : ℝ) : Quat :=
  ⟨0, Real.sin (angle / 2), 0, Real.cos (angle / 2)⟩

/-- `Vector3.applyQuaternion` (THREE r156 formula). -/
def Vec3.applyQuaternion (v : Vec3) (q : Quat) : Vec3 :=
  let tx := 2 * (q.y * v.z - q.z * v.y)
  let ty := 2 * (q.z * v.x - q.x * v.z)
  let tz := 2 * (q.x * v.y - q.y * v.x)
  ⟨v.x + q.w * tx + q.y * tz - q.z * ty,
   v.y + q.w * ty + q.z * tx - q.x * tz,
   v.z + q.w * tz + q.x * ty - q.y * tx⟩

/-- `THREE.MathUtils.lerp x y t = (1 - t) * x + t * y`. -/
def lerp (x y t : ℝ) : ℝ := (1 - t) * x + t * y

/-- The latched input flags (`keys`, `src/main.js:147`). -/
structure Keys where
  forward : Bool
  back : Bool
  left : Bool
  right : Bool
  handbrake : Bool

/-- The visual object of the vehicle: the fields of `vehicle.mesh` the core
reads and writes (`position`, `quaternion`). -/
structure Mesh where
  position : Vec3
  quaternion : Quat

/-- The mutable vehicle state (`vehicle`, `src/main.js:88`): the nullable
mesh together with `velocity` and `steerAngle`.  The static parameters of
the `vehicle` literal are the constants below. -/
structure VehicleState where
  mesh : Option Mesh
  velocity : Vec3
  steerAngle : ℝ

/-- `vehicle.mass`. -/
def mass : ℝ := 1800

/-- `vehicle.wheelBase`. -/
def wheelBase : ℝ := 2.7

/-- `vehicle.maxSteer = Math.PI / 6`. -/
def maxSteer : ℝ := Real.pi / 6

/-- `vehicle.dragCoef`. -/
def dragCoef : ℝ := 0.4257

/-- `vehicle.rollingResistance`. -/
def rollingResistance : ℝ := 12

/-- `maxEngine` (`src/main.js:202`). -/
def maxEngine : ℝ := 8000

/-- `suspensionK` (`src/main.js:227`). -/
def suspensionK : ℝ := 80

/-- Throttle mapping (`src/main.js:200`). -/
def throttleOf (k : Keys) : ℝ :=
  if k.forward then 1 else if k.back then -0.6 else 0

/-- Steer input (`src/main.js:201`). -/
def steerInputOf (k : Keys) : ℝ :=
  (if k.left then 1 else 0) - (if k.right then 1 else 0)

/-- The `dt` clamp (`src/main.js:195`). -/
def clampDt (raw : ℝ) : ℝ := if raw > 0.05 then 0.05 else raw

/-- Steering update (`src/main.js:203-204`):
`lerp(steerAngle, steerInput * maxSteer, 5 * dt)`. -/
def steerAfter (k : Keys) (dt a : ℝ) : ℝ :=
  lerp a (steerInputOf k * maxSteer) (5 * dt)

/-- The forward unit vector (`src/main.js:206`): local `+Z` rotated by the
orientation, then normalized. -/
def forwardVec (q : Quat) : Vec3 :=
  (Vec3.applyQuaternion ⟨0, 0, 1⟩ q).normalize

/-- The net force (`src/main.js:207-211`): engine + quadratic drag +
linear rolling resistance, accumulated onto a fresh zero vector. -/
def netForce (k : Keys) (q : Quat) (v : Vec3) : Vec3 :=
  (((Vec3.add ⟨0, 0, 0⟩ (Vec3.smul (throttleOf k * maxEngine) (forwardVec q))).add
      (Vec3.smul (-dragCoef * v.length) v)).add
    (Vec3.smul (-rollingResistance) v))

/-- Velocity after the velocity-integration part of the step
(`src/main.js:212-214`): `velocity + (net/mass) * dt`. -/
def velAfter (k : Keys) (q : Quat) (dt : ℝ) (v : Vec3) : Vec3 :=
  Vec3.add v (Vec3.smul dt (Vec3.smul (1 / mass) (netForce k q v)))

/-- Yaw angular velocity (`src/main.js:216`): nonzero only when the world
`z` component of the (post-integration) velocity is nonzero. -/
def angularVelOf (v : Vec3) (steer : ℝ) : ℝ :=
  if v.z ≠ 0 then v.length / wheelBase * Real.tan steer else 0

/-- Ground probe (`src/main.js:183-188`): `hits x z` is the list of
intersection heights the external raycaster reports for the downward ray
from `(x, 2000, z)`; the sampler returns the first hit's height, or the
sentinel `-1000` when there is none. -/
def getGroundHeightAt (hits : ℝ → ℝ → List ℝ) (x z : ℝ) : ℝ :=
  match hits x z with
  | [] => -1000
  | h :: _ => h

/-- Modelled from the spec: the hit list the external raycaster reports over
flat terrain of height `h` — the probe descends from altitude 2000, so it
meets the plane exactly when `h ≤ 2000`, at height `h`. -/
def flatHits (h : ℝ) : ℝ → ℝ → List ℝ :=
  fun _ _ => if h ≤ 2000 then [h] else []

/-- One physics step (`physicsStep`, `src/main.js:192-230`), with the raw
elapsed time as a parameter (the code derives it from the wall clock and
clamps it to 0.05 s).  A `null` mesh makes the step a no-op. -/
def physicsStep (hits : ℝ → ℝ → List ℝ) (k : Keys) (rawDt : ℝ)
    (s : VehicleState) : VehicleState :=
  let dt := clampDt rawDt
  match s.mesh with
  | none => s
  | some m =>
    let steer1 := steerAfter k dt s.steerAngle
    let vel1 := velAfter k m.quaternion dt s.velocity
    let deltaYaw := angularVelOf vel1 steer1 * dt
    let quat1 := Quat.mul (Quat.setFromAxisAngleY deltaYaw) m.quaternion
    let localForward := Vec3.applyQuaternion ⟨0, 0, 1⟩ quat1
    let pos1 := m.position.add
      (Vec3.smul (vel1.length * dt * Real.sign (vel1.dot localForward)) localForward)
    let groundY := getGroundHeightAt hits pos1.x pos1.z
    let vy := vel1.y + (groundY + 0.8 - pos1.y) * suspensionK * dt - 9.81 * dt
    { mesh := some ⟨⟨pos1.x, pos1.y + vy * dt, pos1.z⟩, quat1⟩,
      velocity := ⟨vel1.x, vy, vel1.z⟩,
      steerAngle := steer1 }

/-- `resetVehicle` (`src/main.js:232-237`): a no-op when the mesh is absent,
otherwise resets the mesh position, mesh quaternion and the velocity. -/
def resetVehicle (s : VehicleState) : VehicleState :=
  match s.mesh with
  | none => s
  | some _ =>
    { mesh := some ⟨⟨0, 20, 0⟩, ⟨0, 0, 0, 1⟩⟩,
      velocity := ⟨0, 0, 0⟩,
      steerAngle := s.steerAngle }

/-- `toggleCamera` (`src/main.js:167`): flips the chase flag, and when the
new mode is orbit copies `vehicle.mesh.position` into the orbit target with
no null guard — a `null` mesh there is a fault, modelled as `none`.  Returns
the new chase flag and the (possibly updated) orbit target. -/
def toggleCamera (chaseCam : Bool) (s : VehicleState) (target : Vec3) :
    Option (Bool × Vec3) :=
  let chase1 := !chaseCam
  if chase1 then some (chase1, target)
  else s.mesh.map (fun m => (chase1, m.position))

/-- Result of one camera update: either the chase branch ran (with the new
camera position and the look-at target), or the update was delegated to the
external orbit controller (`controls.update()`). -/
inductive CameraUpdate where
  | chase (cameraPos : Vec3) (lookTarget : Vec3) : CameraUpdate
  | orbitDelegate : CameraUpdate

/-- Desired chase-camera position (`src/main.js:170-172`): the vehicle
position plus the offset `(0, 2.2, -6)` rotated by the vehicle orientation. -/
def desiredCamPos (m : Mesh) : Vec3 :=
  m.position.add (Vec3.applyQuaternion ⟨0, 2.2, -6⟩ m.quaternion)

/-- `camera.position.lerp(desired, 1 - Math.pow(0.01, dt))`
(`src/main.js:173`): componentwise `cam += (desired - cam) * alpha`. -/
def camLerp (dt : ℝ) (cam desired : Vec3) : Vec3 :=
  cam.add (Vec3.smul (1 - (0.01 : ℝ) ^ dt) (desired.sub cam))

/-- `updateCamera` (`src/main.js:168-179`): in chase mode with a mesh
present, lerp the camera toward the rotated offset behind the vehicle with
factor `1 - 0.01 ^ dt` and look at the vehicle plus `(0, 1.2, 0)`;
otherwise delegate to the orbit controls. -/
def updateCamera (chaseCam : Bool) (s : VehicleState) (dt : ℝ)
    (camPos : Vec3) : CameraUpdate :=
  match chaseCam, s.mesh with
  | true, some m =>
    CameraUpdate.chase (camLerp dt camPos (desiredCamPos m))
      (m.position.add ⟨0, 1.2, 0⟩)
  | _, _ => CameraUpdate.orbitDelegate

/-- Modelled from the spec: the lateral (sideways) component of a
world-space velocity, relative to orientation `q` — its component along the
vehicle's local `+X` axis, perpendicular to the local forward `+Z` heading. -/
def lateralComponent (q : Quat) (v : Vec3) : ℝ :=
  Vec3.dot v (Vec3.applyQuaternion ⟨1, 0, 0⟩ q)

/-- Modelled from the spec: the yaw angular velocity as the claim states it —
`(|velocity| / wheelBase) * tan(steerAngle)` when the lateral component of
the velocity is nonzero, and `0` otherwise. -/
def angularVelClaim (q : Quat) (v : Vec3) (steer : ℝ) : ℝ :=
  if lateralComponent q v ≠ 0 then v.length / wheelBase * Real.tan steer else 0

/-- Distance between two points, `a.distanceTo b`. -/
def distV (a b : Vec3) : ℝ := (a.sub b).length

/-! ## Helper lemmas -/

theorem Vec3.length_nonneg (v : Vec3) : 0 ≤ v.length := Real.sqrt_nonneg _

theorem Vec3.length_smul (c : ℝ) (v : Vec3) :
    (Vec3.smul c v).length = |c| * v.length := by
  unfold Vec3.length Vec3.smul
  rw [show (c * v.x) ^ 2 + (c * v.y) ^ 2 + (c * v.z) ^ 2
      = c ^ 2 * (v.x ^ 2 + v.y ^ 2 + v.z ^ 2) by ring]
  rw [Real.sqrt_mul (sq_nonneg c), Real.sqrt_sq_eq_abs]

theorem Vec3.length_eq_zero_iff (v : Vec3) : v.length = 0 ↔ v = ⟨0, 0, 0⟩ := by
  unfold Vec3.length
  rw [Real.sqrt_eq_zero (by positivity)]
  constructor
  · intro h
    have hx : v.x = 0 := by nlinarith [sq_nonneg v.x, sq_nonneg v.y, sq_nonneg v.z]
    have hy : v.y = 0 := by nlinarith [sq_nonneg v.x, sq_nonneg v.y, sq_nonneg v.z]
    have hz : v.z = 0 := by nlinarith [sq_nonneg v.x, sq_nonneg v.y, sq_nonneg v.z]
    exact Vec3.ext hx hy hz
  · rintro rfl
    norm_num

theorem abs_lerp_le {x y t M : ℝ} (ht0 : 0 ≤ t) (ht1 : t ≤ 1)
    (hx : |x| ≤ M) (hy : |y| ≤ M) : |lerp x y t| ≤ M := by
  have h1 : (1 - t) * |x| ≤ (1 - t) * M := mul_le_mul_of_nonneg_left hx (by linarith)
  have h2 : t * |y| ≤ t * M := mul_le_mul_of_nonneg_left hy ht0
  calc |lerp x y t| = |(1 - t) * x + t * y| := rfl
    _ ≤ |(1 - t) * x| + |t * y| := abs_add _ _
    _ = (1 - t) * |x| + t * |y| := by
        rw [abs_mul, abs_mul, abs_of_nonneg (by linarith : (0:ℝ) ≤ 1 - t),
          abs_of_nonneg ht0]
    _ ≤ (1 - t) * M + t * M := add_le_add h1 h2
    _ = M := by ring

theorem abs_steerInputOf_le (k : Keys) : |steerInputOf k| ≤ 1 := by
  obtain ⟨f, b, l, r, h⟩ := k
  cases l <;> cases r <;> norm_num [steerInputOf]

theorem maxSteer_nonneg : 0 ≤ maxSteer := by
  unfold maxSteer
  positivity

theorem clampDt_mem {raw : ℝ} (h : 0 ≤ raw) :
    0 ≤ clampDt raw ∧ clampDt raw ≤ 0.05 := by
  unfold clampDt
  by_cases hc : raw > 0.05
  · rw [if_pos hc]
    norm_num
  · rw [if_neg hc]
    exact ⟨h, le_of_not_lt hc⟩

theorem abs_steerAfter_le (k : Keys) {dt a : ℝ} (h0 : 0 ≤ dt) (h1 : dt ≤ 0.05)
    (ha : |a| ≤ maxSteer) : |steerAfter k dt a| ≤ maxSteer := by
  unfold steerAfter
  apply abs_lerp_le (by linarith) (by linarith) ha
  calc |steerInputOf k * maxSteer| = |steerInputOf k| * |maxSteer| := abs_mul _ _
    _ ≤ 1 * |maxSteer| :=
        mul_le_mul_of_nonneg_right (abs_steerInputOf_le k) (abs_nonneg _)
    _ = maxSteer := by rw [one_mul, abs_of_nonneg maxSteer_nonneg]

theorem abs_steer_physicsStep (hits : ℝ → ℝ → List ℝ) (k : Keys)
    {rawDt : ℝ} (s : VehicleState) (h : 0 ≤ rawDt)
    (hs : |s.steerAngle| ≤ maxSteer) :
    |(physicsStep hits k rawDt s).steerAngle| ≤ maxSteer := by
  obtain ⟨hd0, hd1⟩ := clampDt_mem h
  cases hm : s.mesh with
  | none => simpa [physicsStep, hm] using hs
  | some m => simpa [physicsStep, hm] using abs_steerAfter_le k hd0 hd1 hs

/-! ## Claims -/

/-- C1: for every vehicle state with `|steerAngle| ≤ maxSteer`, every input
state and every `dt ∈ (0, 0.05]`, the state after one physics step again
satisfies `|steerAngle| ≤ maxSteer`; consequently the invariant holds after
every step of any sequence of input states and time steps. -/
theorem steer_invariant :
    (∀ (hits : ℝ → ℝ → List ℝ) (k : Keys) (rawDt : ℝ) (s : VehicleState),
        0 < rawDt → rawDt ≤ 0.05 → |s.steerAngle| ≤ maxSteer →
        |(physicsStep hits k rawDt s).steerAngle| ≤ maxSteer) ∧
    (∀ (hits : ℝ → ℝ → List ℝ) (seq : List (Keys × ℝ)) (s : VehicleState),
        (∀ p ∈ seq, 0 < p.2 ∧ p.2 ≤ 0.05) → |s.steerAngle| ≤ maxSteer →
        |(seq.foldl (fun st p => physicsStep hits p.1 p.2 st) s).steerAngle|
          ≤ maxSteer) := by
  constructor
  · intro hits k rawDt s h0 _ hs
    exact abs_steer_physicsStep hits k s (le_of_lt h0) hs
  · intro hits seq
    induction seq with
    | nil =>
        intro s _ hs
        simpa using hs
    | cons p rest ih =>
        intro s hseq hs
        simp only [List.foldl_cons]
        apply ih
        · intro q hq
          exact hseq q (List.mem_cons_of_mem _ hq)
        · exact abs_steer_physicsStep hits p.1 s
            (le_of_lt (hseq p (List.mem_cons_self _ _)).1) hs

/-- Witness for C1, at a concrete state, input and time step. -/
theorem steer_invariant_witness :
    |(physicsStep (flatHits 0) ⟨false, false, true, false, false⟩ 0.05
        ⟨some ⟨⟨0, 20, 0⟩, ⟨0, 0, 0, 1⟩⟩, ⟨0, 0, 0⟩, 0⟩).steerAngle| ≤ maxSteer ∧
    |(List.foldl (fun st p => physicsStep (flatHits 0) p.1 p.2 st)
        (⟨some ⟨⟨0, 20, 0⟩, ⟨0, 0, 0, 1⟩⟩, ⟨0, 0, 0⟩, 0⟩ : VehicleState)
        [(⟨false, false, true, false, false⟩, 0.016),
         (⟨true, false, false, false, true⟩, 0.05)]).steerAngle| ≤ maxSteer := by
  constructor
  · exact steer_invariant.1 (flatHits 0) _ 0.05 _ (by norm_num) (by norm_num)
      (by simp [maxSteer]; positivity)
  · exact steer_invariant.2 (flatHits 0) _ _
      (by intro p hp; fin_cases hp <;> norm_num)
      (by simp [maxSteer]; positivity)

/-- C5: when the vehicle mesh is present, resetting the vehicle sets the
position to `(0, 20, 0)`, the orientation to the identity quaternion and
the velocity to zero, regardless of the prior state. -/
theorem resetVehicle_spec (s : VehicleState) (m : Mesh) (h : s.mesh = some m) :
    (resetVehicle s).mesh = some ⟨⟨0, 20, 0⟩, ⟨0, 0, 0, 1⟩⟩ ∧
    (resetVehicle s).velocity = ⟨0, 0, 0⟩ := by
  simp [resetVehicle, h]

/-- Witness for C5, at a concrete prior state. -/
theorem resetVehicle_spec_witness :
    (resetVehicle ⟨some ⟨⟨5, -3, 7⟩, ⟨0, 0.6, 0, 0.8⟩⟩, ⟨1, 2, 3⟩, 0.3⟩).mesh
      = some ⟨⟨0, 20, 0⟩, ⟨0, 0, 0, 1⟩⟩ ∧
    (resetVehicle ⟨some ⟨⟨5, -3, 7⟩, ⟨0, 0.6, 0, 0.8⟩⟩, ⟨1, 2, 3⟩, 0.3⟩).velocity
      = ⟨0, 0, 0⟩ :=
  resetVehicle_spec _ ⟨⟨5, -3, 7⟩, ⟨0, 0.6, 0, 0.8⟩⟩ rfl

/-- C9: resetting the vehicle leaves the steering angle unchanged, for every
prior state (with or without a mesh). -/
theorem resetVehicle_preserves_steer (s : VehicleState) :
    (resetVehicle s).steerAngle = s.steerAngle := by
  unfold resetVehicle
  cases s.mesh <;> rfl

/-- C8: the physics step never reads the handbrake flag — two runs that
differ only in the handbrake input produce identical resulting states. -/
theorem handbrake_noninterference (hits : ℝ → ℝ → List ℝ) (rawDt : ℝ)
    (s : VehicleState) (k1 k2 : Keys)
    (hf : k1.forward = k2.forward) (hb : k1.back = k2.back)
    (hl : k1.left = k2.left) (hr : k1.right = k2.right) :
    physicsStep hits k1 rawDt s = physicsStep hits k2 rawDt s := by
  obtain ⟨f1, b1, l1, r1, hb1⟩ := k1
  obtain ⟨f2, b2, l2, r2, hb2⟩ := k2
  dsimp only at hf hb hl hr
  subst hf
  subst hb
  subst hl
  subst hr
  rfl

/-- Witness for C8, at a concrete state with the handbrake differing. -/
theorem handbrake_noninterference_witness :
    physicsStep (flatHits 0) ⟨true, false, false, false, false⟩ 0.016
        ⟨some ⟨⟨0, 20, 0⟩, ⟨0, 0, 0, 1⟩⟩, ⟨0, 0, 0⟩, 0⟩
      = physicsStep (flatHits 0) ⟨true, false, false, false, true⟩ 0.016
        ⟨some ⟨⟨0, 20, 0⟩, ⟨0, 0, 0, 1⟩⟩, ⟨0, 0, 0⟩, 0⟩ :=
  handbrake_noninterference _ _ _ _ _ rfl rfl rfl rfl

theorem steerAngle_physicsStep (hits : ℝ → ℝ → List ℝ) (k : Keys)
    (rawDt : ℝ) (s : VehicleState) (m : Mesh) (h : s.mesh = some m) :
    (physicsStep hits k rawDt s).steerAngle
      = steerAfter k (clampDt rawDt) s.steerAngle := by
  simp [physicsStep, h]

/-- C2 (amended): the physics step updates the steering angle toward
`target = steerInput * maxSteer` by linear interpolation with factor
`5 * dt` — `steerAngle + (target - steerAngle) * (5 * dt)` — not by the
exponential factor `1 - exp (-5 * dt)`. -/
theorem steer_update_linear_lerp (hits : ℝ → ℝ → List ℝ) (k : Keys)
    (rawDt : ℝ) (s : VehicleState) (m : Mesh) (h : s.mesh = some m) :
    (physicsStep hits k rawDt s).steerAngle
      = s.steerAngle
        + (steerInputOf k * maxSteer - s.steerAngle) * (5 * clampDt rawDt) := by
  rw [steerAngle_physicsStep hits k rawDt s m h]
  unfold steerAfter lerp
  ring

/-- Witness for C2's amended theorem: full-left input at `dt = 0.05` from
steer 0 gives exactly `(π/6) * 0.25 = π/24`. -/
theorem steer_update_linear_lerp_witness :
    (physicsStep (flatHits 0) ⟨false, false, true, false, false⟩ 0.05
        ⟨some ⟨⟨0, 20, 0⟩, ⟨0, 0, 0, 1⟩⟩, ⟨0, 0, 0⟩, 0⟩).steerAngle
      = Real.pi / 24 := by
  rw [steer_update_linear_lerp (flatHits 0) ⟨false, false, true, false, false⟩
    0.05 ⟨some ⟨⟨0, 20, 0⟩, ⟨0, 0, 0, 1⟩⟩, ⟨0, 0, 0⟩, 0⟩
    ⟨⟨0, 20, 0⟩, ⟨0, 0, 0, 1⟩⟩ rfl]
  norm_num [steerInputOf, maxSteer, clampDt]
  ring

/-- C2 counterexample: at `dt = 0.05`, steer 0 and full-left input, the
code's updated steering angle is not
`steer + (target - steer) * (1 - exp (-(5 * dt)))`: the code's lerp factor
is `5 * dt = 0.25` while `1 - exp (-0.25) < 0.25`. -/
theorem steer_not_exponential_cex :
    (physicsStep (flatHits 0) ⟨false, false, true, false, false⟩ 0.05
        ⟨some ⟨⟨0, 20, 0⟩, ⟨0, 0, 0, 1⟩⟩, ⟨0, 0, 0⟩, 0⟩).steerAngle
      ≠ 0 + (steerInputOf ⟨false, false, true, false, false⟩ * maxSteer - 0)
          * (1 - Real.exp (-(5 * 0.05))) := by
  intro heq
  rw [steerAngle_physicsStep (flatHits 0) ⟨false, false, true, false, false⟩
    0.05 ⟨some ⟨⟨0, 20, 0⟩, ⟨0, 0, 0, 1⟩⟩, ⟨0, 0, 0⟩, 0⟩
    ⟨⟨0, 20, 0⟩, ⟨0, 0, 0, 1⟩⟩ rfl] at heq
  have hL : steerAfter ⟨false, false, true, false, false⟩ (clampDt 0.05)
      (VehicleState.steerAngle ⟨some ⟨⟨0, 20, 0⟩, ⟨0, 0, 0, 1⟩⟩, ⟨0, 0, 0⟩, 0⟩)
      = Real.pi / 6 * (1 / 4) := by
    unfold steerAfter lerp steerInputOf maxSteer clampDt
    norm_num
    ring
  rw [hL] at heq
  have hR : (0:ℝ) + (steerInputOf ⟨false, false, true, false, false⟩ * maxSteer - 0)
      * (1 - Real.exp (-(5 * 0.05)))
      = Real.pi / 6 * (1 - Real.exp (-(1 / 4))) := by
    unfold steerInputOf maxSteer
    norm_num
  rw [hR] at heq
  have hpi : Real.pi / 6 ≠ 0 := by positivity
  have hq : (1:ℝ) / 4 = 1 - Real.exp (-(1 / 4)) := mul_left_cancel₀ hpi heq
  have hexp : (-(1:ℝ) / 4) + 1 < Real.exp (-(1 / 4)) := by
    have := Real.add_one_lt_exp (show (-(1:ℝ) / 4) ≠ 0 by norm_num)
    calc (-(1:ℝ) / 4) + 1 < Real.exp (-(1) / 4) := this
      _ = Real.exp (-(1 / 4)) := by norm_num
  linarith

/-- C6: the ground sampler returns the first reported intersection height
when the downward probe hits (hence `h` over flat terrain of height
`h ≤ 2000`), and the deep sentinel `-1000` instead of failing when no
intersection is found. -/
theorem groundHeight_spec :
    (∀ (hits : ℝ → ℝ → List ℝ) (x z h : ℝ) (rest : List ℝ),
        hits x z = h :: rest → getGroundHeightAt hits x z = h) ∧
    (∀ (h x z : ℝ), h ≤ 2000 → getGroundHeightAt (flatHits h) x z = h) ∧
    (∀ (hits : ℝ → ℝ → List ℝ) (x z : ℝ),
        hits x z = [] → getGroundHeightAt hits x z = -1000) := by
  refine ⟨?_, ?_, ?_⟩
  · intro hits x z h rest hh
    simp [getGroundHeightAt, hh]
  · intro h x z hle
    simp [getGroundHeightAt, flatHits, hle]
  · intro hits x z hh
    simp [getGroundHeightAt, hh]

/-- Witness for C6, at concrete probe points and terrains. -/
theorem groundHeight_spec_witness :
    getGroundHeightAt (fun _ _ => [3]) 10 20 = 3 ∧
    getGroundHeightAt (flatHits 7) 10 20 = 7 ∧
    getGroundHeightAt (fun _ _ => []) 10 20 = -1000 :=
  ⟨groundHeight_spec.1 _ 10 20 3 [] rfl,
   groundHeight_spec.2.1 7 10 20 (by norm_num),
   groundHeight_spec.2.2 _ 10 20 rfl⟩

/-- C10: toggling from chase into orbit copies `vehicle.mesh.position` with
no null guard, so it faults (`none`) exactly when the mesh is absent, while
entering chase never faults; the physics step and the chase-mode camera
update are total for every state because each guards on the mesh existing
(a meshless step is a no-op, a meshless chase update delegates to the orbit
controller). -/
theorem toggleCamera_mesh_guard :
    (∀ (s : VehicleState) (t : Vec3),
        toggleCamera true s t = none ↔ s.mesh = none) ∧
    (∀ (s : VehicleState) (t : Vec3), (toggleCamera false s t).isSome = true) ∧
    (∀ (s : VehicleState) (t : Vec3),
        s.mesh ≠ none → (toggleCamera true s t).isSome = true) ∧
    (∀ (hits : ℝ → ℝ → List ℝ) (k : Keys) (rawDt : ℝ) (s : VehicleState),
        s.mesh = none → physicsStep hits k rawDt s = s) ∧
    (∀ (s : VehicleState) (dt : ℝ) (cam : Vec3),
        s.mesh = none → updateCamera true s dt cam = CameraUpdate.orbitDelegate) := by
  refine ⟨?_, ?_, ?_, ?_, ?_⟩
  · intro s t
    simp [toggleCamera]
  · intro s t
    simp [toggleCamera]
  · intro s t hm
    cases hs : s.mesh with
    | none => exact absurd hs hm
    | some m => simp [toggleCamera, hs]
  · intro hits k rawDt s hm
    simp [physicsStep, hm]
  · intro s dt cam hm
    simp [updateCamera, hm]

/-- Witness for C10, at a meshless and a mesh-attached concrete state. -/
theorem toggleCamera_mesh_guard_witness :
    toggleCamera true ⟨none, ⟨0, 0, 0⟩, 0⟩ ⟨1, 2, 3⟩ = none ∧
    (toggleCamera true ⟨some ⟨⟨0, 20, 0⟩, ⟨0, 0, 0, 1⟩⟩, ⟨0, 0, 0⟩, 0⟩
        ⟨1, 2, 3⟩).isSome = true ∧
    physicsStep (flatHits 0) ⟨false, false, false, false, false⟩ 0.016
        ⟨none, ⟨0, 0, 0⟩, 0⟩ = ⟨none, ⟨0, 0, 0⟩, 0⟩ ∧
    updateCamera true ⟨none, ⟨0, 0, 0⟩, 0⟩ 0.016 ⟨0, 0, 0⟩
      = CameraUpdate.orbitDelegate :=
  ⟨(toggleCamera_mesh_guard.1 _ _).mpr rfl,
   toggleCamera_mesh_guard.2.2.1 _ _ (by simp),
   toggleCamera_mesh_guard.2.2.2.1 _ _ _ _ rfl,
   toggleCamera_mesh_guard.2.2.2.2 _ _ _ rfl⟩

theorem distV_pos {a b : Vec3} (h : a ≠ b) : 0 < distV a b := by
  rcases lt_or_eq_of_le (Vec3.length_nonneg (a.sub b)) with hlt | heq
  · exact hlt
  · exfalso
    apply h
    have h0 : a.sub b = ⟨0, 0, 0⟩ := (Vec3.length_eq_zero_iff _).mp heq.symm
    have hx := congrArg Vec3.x h0
    have hy := congrArg Vec3.y h0
    have hz := congrArg Vec3.z h0
    simp [Vec3.sub] at hx hy hz
    exact Vec3.ext (by linarith) (by linarith) (by linarith)

/-- C4 (amended): with zero throttle input (`forward` and `back` both
false), positive `dt`, nonzero velocity, and speed small enough that
`dt * (dragCoef * |v| + rollingResistance) < mass` (true of every speed
below roughly 84,500 m/s when `dt ≤ 0.05`), the velocity after the
velocity-integration part of the step is the prior velocity scaled by a
factor strictly between 0 and 1: the speed strictly decreases toward zero
and the direction never reverses. -/
theorem coast_speed_decreases (k : Keys) (q : Quat) (dt : ℝ) (v : Vec3)
    (hf : k.forward = false) (hb : k.back = false)
    (hdt0 : 0 < dt)
    (hbound : dt * (dragCoef * v.length + rollingResistance) < mass)
    (hv : v.length ≠ 0) :
    velAfter k q dt v
        = Vec3.smul (1 - dt * (dragCoef * v.length + rollingResistance) / mass) v ∧
    0 < 1 - dt * (dragCoef * v.length + rollingResistance) / mass ∧
    1 - dt * (dragCoef * v.length + rollingResistance) / mass < 1 ∧
    (velAfter k q dt v).length
        = (1 - dt * (dragCoef * v.length + rollingResistance) / mass) * v.length ∧
    (velAfter k q dt v).length < v.length := by
  have hvpos : 0 < v.length := lt_of_le_of_ne (Vec3.length_nonneg v) (Ne.symm hv)
  have hmass : (0:ℝ) < mass := by norm_num [mass]
  have hcpos : 0 < 1 - dt * (dragCoef * v.length + rollingResistance) / mass := by
    have h1 := (div_lt_one hmass).mpr hbound
    linarith
  have hclt : 1 - dt * (dragCoef * v.length + rollingResistance) / mass < 1 := by
    have hdc : (0:ℝ) ≤ dragCoef * v.length := by
      apply mul_nonneg _ hvpos.le
      norm_num [dragCoef]
    have hrr : (0:ℝ) < dragCoef * v.length + rollingResistance := by
      have : (0:ℝ) < rollingResistance := by norm_num [rollingResistance]
      linarith
    have hpos : 0 < dt * (dragCoef * v.length + rollingResistance) / mass :=
      div_pos (mul_pos hdt0 hrr) hmass
    linarith
  have heq : velAfter k q dt v
      = Vec3.smul (1 - dt * (dragCoef * v.length + rollingResistance) / mass) v := by
    ext <;>
      simp only [velAfter, netForce, Vec3.add, Vec3.smul, throttleOf, hf, hb,
        Bool.false_eq_true, if_false] <;>
      (unfold dragCoef rollingResistance mass maxEngine; ring)
  have hlen : (velAfter k q dt v).length
      = (1 - dt * (dragCoef * v.length + rollingResistance) / mass) * v.length := by
    rw [heq, Vec3.length_smul, abs_of_pos hcpos]
  refine ⟨heq, hcpos, hclt, hlen, ?_⟩
  rw [hlen]
  calc (1 - dt * (dragCoef * v.length + rollingResistance) / mass) * v.length
      < 1 * v.length := mul_lt_mul_of_pos_right hclt hvpos
    _ = v.length := one_mul _

/-- Witness for C4's amended theorem, coasting at speed 10 straight ahead. -/
theorem coast_speed_decreases_witness :
    (velAfter ⟨false, false, false, false, false⟩ ⟨0, 0, 0, 1⟩ 0.05
        ⟨0, 0, 10⟩).length < (⟨0, 0, 10⟩ : Vec3).length := by
  have hlen : (⟨0, 0, 10⟩ : Vec3).length = 10 := by
    unfold Vec3.length
    rw [show (0:ℝ) ^ 2 + 0 ^ 2 + 10 ^ 2 = 10 ^ 2 by norm_num]
    exact Real.sqrt_sq (by norm_num)
  exact (coast_speed_decreases ⟨false, false, false, false, false⟩ ⟨0, 0, 0, 1⟩
    0.05 ⟨0, 0, 10⟩ rfl rfl (by norm_num)
    (by rw [hlen]; norm_num [dragCoef, rollingResistance, mass])
    (by rw [hlen]; norm_num)).2.2.2.2

/-- C4 counterexample: with zero throttle and `dt = 0.05`, at the (per the
claim arbitrary) velocity `(0, 0, 1000000)` the explicit-Euler update
overshoots — the speed after the velocity-integration part exceeds the
prior speed and the `z` component reverses sign. -/
theorem coast_speed_blowup_cex :
    (velAfter ⟨false, false, false, false, false⟩ ⟨0, 0, 0, 1⟩ 0.05
        ⟨0, 0, 1000000⟩).length > (⟨0, 0, 1000000⟩ : Vec3).length ∧
    (velAfter ⟨false, false, false, false, false⟩ ⟨0, 0, 0, 1⟩ 0.05
        ⟨0, 0, 1000000⟩).z < 0 ∧
    (0:ℝ) < (⟨0, 0, 1000000⟩ : Vec3).z := by
  have hlen : (⟨0, 0, 1000000⟩ : Vec3).length = 1000000 := by
    unfold Vec3.length
    rw [show (0:ℝ) ^ 2 + 0 ^ 2 + 1000000 ^ 2 = 1000000 ^ 2 by norm_num]
    exact Real.sqrt_sq (by norm_num)
  have hv : velAfter ⟨false, false, false, false, false⟩ ⟨0, 0, 0, 1⟩ 0.05
      ⟨0, 0, 1000000⟩ = ⟨0, 0, -(32476000 : ℝ) / 3⟩ := by
    ext <;>
      simp [velAfter, netForce, Vec3.add, Vec3.smul, throttleOf, hlen,
        dragCoef, rollingResistance, mass, maxEngine]
    norm_num
  have hlen2 : (⟨0, 0, -(32476000 : ℝ) / 3⟩ : Vec3).length = 32476000 / 3 := by
    unfold Vec3.length
    rw [show (0:ℝ) ^ 2 + 0 ^ 2 + (-(32476000 : ℝ) / 3) ^ 2
        = (32476000 / 3) ^ 2 by ring]
    exact Real.sqrt_sq (by norm_num)
  refine ⟨?_, ?_, by norm_num⟩
  · rw [hv, hlen, hlen2]
    norm_num
  · rw [hv]
    norm_num

/-- C7: in chase mode with the mesh present, the camera update lerps the
camera toward the desired position — the vehicle position plus the offset
`(0, 2.2, -6)` rotated by the vehicle orientation — with factor
`1 - 0.01 ^ dt` and looks at the vehicle position plus `(0, 1.2, 0)`; for
every `dt > 0` the factor lies in `(0, 1)` and the remaining distance to the
desired position is scaled by exactly `0.01 ^ dt`, so a single update moves
the camera only partially toward the target and never reaches or overshoots
it. -/
theorem chaseCamera_spec (s : VehicleState) (m : Mesh) (dt : ℝ) (cam : Vec3)
    (h : s.mesh = some m) (hdt : 0 < dt) :
    updateCamera true s dt cam
      = CameraUpdate.chase (camLerp dt cam (desiredCamPos m))
          (m.position.add ⟨0, 1.2, 0⟩) ∧
    0 < (0.01 : ℝ) ^ dt ∧ (0.01 : ℝ) ^ dt < 1 ∧
    distV (camLerp dt cam (desiredCamPos m)) (desiredCamPos m)
      = (0.01 : ℝ) ^ dt * distV cam (desiredCamPos m) ∧
    (cam ≠ desiredCamPos m →
      0 < distV (camLerp dt cam (desiredCamPos m)) (desiredCamPos m) ∧
      distV (camLerp dt cam (desiredCamPos m)) (desiredCamPos m)
        < distV cam (desiredCamPos m)) := by
  have hpow0 : 0 < (0.01 : ℝ) ^ dt := Real.rpow_pos_of_pos (by norm_num) dt
  have hpow1 : (0.01 : ℝ) ^ dt < 1 :=
    Real.rpow_lt_one (by norm_num) (by norm_num) hdt
  have hsub : (camLerp dt cam (desiredCamPos m)).sub (desiredCamPos m)
      = Vec3.smul ((0.01 : ℝ) ^ dt) (cam.sub (desiredCamPos m)) := by
    ext <;> simp [camLerp, Vec3.add, Vec3.sub, Vec3.smul] <;> ring
  have hdist : distV (camLerp dt cam (desiredCamPos m)) (desiredCamPos m)
      = (0.01 : ℝ) ^ dt * distV cam (desiredCamPos m) := by
    unfold distV
    rw [hsub, Vec3.length_smul, abs_of_pos hpow0]
  refine ⟨by simp [updateCamera, h], hpow0, hpow1, hdist, ?_⟩
  intro hne
  have hdpos : 0 < distV cam (desiredCamPos m) := distV_pos hne
  constructor
  · rw [hdist]
    exact mul_pos hpow0 hdpos
  · rw [hdist]
    calc (0.01 : ℝ) ^ dt * distV cam (desiredCamPos m)
        < 1 * distV cam (desiredCamPos m) := mul_lt_mul_of_pos_right hpow1 hdpos
      _ = distV cam (desiredCamPos m) := one_mul _

/-- Witness for C7, at the identity orientation, `dt = 1` and the camera at
the origin. -/
theorem chaseCamera_spec_witness :
    updateCamera true ⟨some ⟨⟨0, 0, 0⟩, ⟨0, 0, 0, 1⟩⟩, ⟨0, 0, 0⟩, 0⟩ 1 ⟨0, 0, 0⟩
      = CameraUpdate.chase
          (camLerp 1 ⟨0, 0, 0⟩ (desiredCamPos ⟨⟨0, 0, 0⟩, ⟨0, 0, 0, 1⟩⟩))
          ((⟨0, 0, 0⟩ : Vec3).add ⟨0, 1.2, 0⟩) ∧
    distV (camLerp 1 ⟨0, 0, 0⟩ (desiredCamPos ⟨⟨0, 0, 0⟩, ⟨0, 0, 0, 1⟩⟩))
        (desiredCamPos ⟨⟨0, 0, 0⟩, ⟨0, 0, 0, 1⟩⟩)
      < distV ⟨0, 0, 0⟩ (desiredCamPos ⟨⟨0, 0, 0⟩, ⟨0, 0, 0, 1⟩⟩) := by
  have h := chaseCamera_spec ⟨some ⟨⟨0, 0, 0⟩, ⟨0, 0, 0, 1⟩⟩, ⟨0, 0, 0⟩, 0⟩
    ⟨⟨0, 0, 0⟩, ⟨0, 0, 0, 1⟩⟩ 1 ⟨0, 0, 0⟩ rfl one_pos
  refine ⟨h.1, (h.2.2.2.2 ?_).2⟩
  intro hc
  have hy := congrArg Vec3.y hc
  simp [desiredCamPos, Vec3.add, Vec3.applyQuaternion] at hy
  norm_num at hy

/-- C3 (amended): in every physics step with the mesh present, the yaw
angular velocity is `(|velocity| / wheelBase) * tan steerAngle` whenever
the **world z component** of the (post-integration) velocity is nonzero,
and `0` otherwise; the orientation is then rotated by
`angularVelocity * dt` about the world vertical axis, pre-multiplied. -/
theorem yaw_update_zcomponent (hits : ℝ → ℝ → List ℝ) (k : Keys) (rawDt : ℝ)
    (s : VehicleState) (m : Mesh) (h : s.mesh = some m) :
    Option.map Mesh.quaternion (physicsStep hits k rawDt s).mesh
      = some (Quat.mul (Quat.setFromAxisAngleY
          ((if (velAfter k m.quaternion (clampDt rawDt) s.velocity).z ≠ 0 then
              (velAfter k m.quaternion (clampDt rawDt) s.velocity).length
                / wheelBase
                * Real.tan (steerAfter k (clampDt rawDt) s.steerAngle)
            else 0) * clampDt rawDt))
          m.quaternion) := by
  simp [physicsStep, h, angularVelOf]

/-- Witness for C3's amended theorem, at a concrete resting state. -/
theorem yaw_update_zcomponent_witness :
    Option.map Mesh.quaternion (physicsStep (flatHits 0)
        ⟨false, false, false, false, false⟩ 0.016
        ⟨some ⟨⟨0, 20, 0⟩, ⟨0, 0, 0, 1⟩⟩, ⟨0, 0, 0⟩, 0⟩).mesh
      = some (Quat.mul (Quat.setFromAxisAngleY
          ((if (velAfter ⟨false, false, false, false, false⟩ ⟨0, 0, 0, 1⟩
                  (clampDt 0.016) ⟨0, 0, 0⟩).z ≠ 0 then
              (velAfter ⟨false, false, false, false, false⟩ ⟨0, 0, 0, 1⟩
                  (clampDt 0.016) ⟨0, 0, 0⟩).length / wheelBase
                * Real.tan (steerAfter ⟨false, false, false, false, false⟩
                    (clampDt 0.016) 0)
            else 0) * clampDt 0.016))
          ⟨0, 0, 0, 1⟩) :=
  yaw_update_zcomponent (flatHits 0) ⟨false, false, false, false, false⟩ 0.016
    ⟨some ⟨⟨0, 20, 0⟩, ⟨0, 0, 0, 1⟩⟩, ⟨0, 0, 0⟩, 0⟩
    ⟨⟨0, 20, 0⟩, ⟨0, 0, 0, 1⟩⟩ rfl

/-- C3 counterexample: with identity orientation, velocity straight ahead
along world `+Z` (so the lateral component of the velocity is zero) and a
left steer held at `π/6`, the claim's lateral-component rule predicts zero
yaw rate and an unchanged orientation, but the step turns the vehicle: the
resulting orientation differs from the claim's prediction. -/
theorem angularVel_not_lateral_cex :
    Option.map Mesh.quaternion (physicsStep (flatHits 0)
        ⟨false, false, true, false, false⟩ 0.05
        ⟨some ⟨⟨0, 20, 0⟩, ⟨0, 0, 0, 1⟩⟩, ⟨0, 0, 5⟩, Real.pi / 6⟩).mesh
      ≠ some (Quat.mul (Quat.setFromAxisAngleY
          (angularVelClaim ⟨0, 0, 0, 1⟩
              (velAfter ⟨false, false, true, false, false⟩ ⟨0, 0, 0, 1⟩
                (clampDt 0.05) ⟨0, 0, 5⟩)
              (steerAfter ⟨false, false, true, false, false⟩ (clampDt 0.05)
                (Real.pi / 6))
            * clampDt 0.05))
          ⟨0, 0, 0, 1⟩) := by
  intro heq
  have hcode : Option.map Mesh.quaternion (physicsStep (flatHits 0)
      ⟨false, false, true, false, false⟩ 0.05
      ⟨some ⟨⟨0, 20, 0⟩, ⟨0, 0, 0, 1⟩⟩, ⟨0, 0, 5⟩, Real.pi / 6⟩).mesh
      = some (Quat.mul (Quat.setFromAxisAngleY
          (angularVelOf (velAfter ⟨false, false, true, false, false⟩
              ⟨0, 0, 0, 1⟩ (clampDt 0.05) ⟨0, 0, 5⟩)
            (steerAfter ⟨false, false, true, false, false⟩ (clampDt 0.05)
              (Real.pi / 6)) * clampDt 0.05))
          ⟨0, 0, 0, 1⟩) := by
    simp [physicsStep]
  have heq2 := Option.some.inj (hcode.symm.trans heq)
  have hdt : clampDt 0.05 = 0.05 := by norm_num [clampDt]
  rw [hdt] at heq2
  have hlen5 : (⟨0, 0, 5⟩ : Vec3).length = 5 := by
    unfold Vec3.length
    rw [show (0:ℝ) ^ 2 + 0 ^ 2 + 5 ^ 2 = 5 ^ 2 by norm_num]
    exact Real.sqrt_sq (by norm_num)
  have hv1 : velAfter ⟨false, false, true, false, false⟩ ⟨0, 0, 0, 1⟩ 0.05
      ⟨0, 0, 5⟩ = ⟨0, 0, (23990581 : ℝ) / 4800000⟩ := by
    ext <;>
      simp [velAfter, netForce, Vec3.add, Vec3.smul, throttleOf, hlen5,
        dragCoef, rollingResistance, mass, maxEngine]
    norm_num
  have hst : steerAfter ⟨false, false, true, false, false⟩ 0.05
      (Real.pi / 6) = Real.pi / 6 := by
    unfold steerAfter lerp steerInputOf maxSteer
    norm_num
    ring
  rw [hv1, hst] at heq2
  have hclaim : angularVelClaim ⟨0, 0, 0, 1⟩ ⟨0, 0, (23990581 : ℝ) / 4800000⟩
      (Real.pi / 6) = 0 := by
    have hne : ¬ (Vec3.dot ⟨0, 0, (23990581 : ℝ) / 4800000⟩
        (Vec3.applyQuaternion ⟨1, 0, 0⟩ ⟨0, 0, 0, 1⟩) ≠ 0) := by
      simp [Vec3.dot, Vec3.applyQuaternion]
    unfold angularVelClaim lateralComponent
    rw [if_neg hne]
  have hlenc : (⟨0, 0, (23990581 : ℝ) / 4800000⟩ : Vec3).length
      = (23990581 : ℝ) / 4800000 := by
    unfold Vec3.length
    rw [show (0:ℝ) ^ 2 + 0 ^ 2 + ((23990581 : ℝ) / 4800000) ^ 2
        = ((23990581 : ℝ) / 4800000) ^ 2 by ring]
    exact Real.sqrt_sq (by norm_num)
  have hcav : angularVelOf ⟨0, 0, (23990581 : ℝ) / 4800000⟩ (Real.pi / 6)
      = (23990581 : ℝ) / 4800000 / wheelBase * Real.tan (Real.pi / 6) := by
    unfold angularVelOf
    rw [if_pos (by norm_num), hlenc]
  rw [hclaim, hcav] at heq2
  have htan0 : 0 < Real.tan (Real.pi / 6) :=
    Real.tan_pos_of_pos_of_lt_pi_div_two (by positivity)
      (by linarith [Real.pi_pos])
  have htan1 : Real.tan (Real.pi / 6) < 1 := by
    have h4 := Real.tan_pi_div_four
    have hlt := Real.tan_lt_tan_of_nonneg_of_lt_pi_div_two
      (show (0:ℝ) ≤ Real.pi / 6 by positivity)
      (show Real.pi / 4 < Real.pi / 2 by linarith [Real.pi_pos])
      (show Real.pi / 6 < Real.pi / 4 by linarith [Real.pi_pos])
    rwa [h4] at hlt
  have hysin : Real.sin ((23990581 : ℝ) / 4800000 / wheelBase
      * Real.tan (Real.pi / 6) * 0.05 / 2) = 0 := by
    have hy := congrArg Quat.y heq2
    simpa [Quat.mul, Quat.setFromAxisAngleY] using hy
  have hwb : (0:ℝ) < wheelBase := by norm_num [wheelBase]
  have h1 : 0 < (23990581 : ℝ) / 4800000 / wheelBase :=
    div_pos (by norm_num) hwb
  have hδpos : 0 < (23990581 : ℝ) / 4800000 / wheelBase
      * Real.tan (Real.pi / 6) * 0.05 / 2 :=
    div_pos (mul_pos (mul_pos h1 htan0) (by norm_num)) (by norm_num)
  have hδlt : (23990581 : ℝ) / 4800000 / wheelBase
      * Real.tan (Real.pi / 6) * 0.05 / 2 < Real.pi := by
    rw [show wheelBase = (2.7 : ℝ) from rfl]
    nlinarith [Real.pi_gt_three, htan0, htan1]
  have hsin := Real.sin_pos_of_pos_of_lt_pi hδpos hδlt
  rw [hysin] at hsin
  exact lt_irrefl 0 hsin

end Car
